/-
Verification of the camera-uploader component (src/components/common/camera-uploader.tsx).

The component is shallowly embedded: React state becomes an explicit state record,
the `useCallback` handlers become state-transforming functions, and the side channels
(console.warn rejections, `alert` dialogs, `onFilesChange` observer invocations,
`URL.revokeObjectURL` releases, `MediaStreamTrack.stop` calls) become explicit lists
in the functions' outputs.  `Math.random().toString(36).substr(2, 9)` identifier
generation and `URL.createObjectURL` preview allocation are modelled by threading an
identifier generator `idGen : Nat → String` and a running counter through the state:
the k-th entry ever created receives identifier `idGen k` and preview handle `k`.
-/
import Mathlib

namespace CameraUploader

/-! ## String helpers

JS string primitives used by the component, modelled over the character list of a
`String` so that everything reduces in the kernel:
`p.endsWith "/*"`, `s.startsWith p`, `t.slice(0, -1)` (drop the final character). -/

/-- JS `s.startsWith(p)`. -/
def strStartsWith (s p : String) : Bool :=
  p.data.isPrefixOf s.data

/-- JS `s.endsWith(p)`. -/
def strEndsWith (s p : String) : Bool :=
  p.data.isSuffixOf s.data

/-- JS `s.slice(0, -1)`: the string without its final character. -/
def strDropLast (s : String) : String :=
  ⟨s.data.dropLast⟩

/-- JS `Array.prototype.slice(0, e)` where `e` may be negative
(`slice(0, e)` with `e < 0` keeps all but the last `|e|` elements). -/
def jsSliceTo (l : List α) (e : Int) : List α :=
  l.take (if e < 0 then ((l.length : Int) + e).toNat else e.toNat)

/-! ## Data model -/

/-- The browser `File` handle: the metadata the component reads from it. -/
structure FileData where
  name : String
  size : Nat
  type : String
deriving DecidableEq, Repr

/-- The `FileObject` interface: one tracked entry of the pending set. -/
structure FileObject where
  file : FileData
  id : String
  preview : Nat
  name : String
  size : Nat
  type : String
deriving DecidableEq, Repr

/-- The component props that govern validation. -/
structure Config where
  maxFileSize : Nat
  acceptedTypes : List String
  maxFiles : Nat
deriving Repr

/-- Default props: `maxFileSize = 10 MiB`, `acceptedTypes = ['image/*', 'video/*']`,
`maxFiles = 10`. -/
def defaultConfig : Config :=
  { maxFileSize := 10 * 1024 * 1024
    acceptedTypes := ["image/*", "video/*"]
    maxFiles := 10 }

/-- The component state touched by intake: the `files` pending set, plus the counter
feeding the identifier/preview generators (number of entries ever created). -/
structure UState where
  files : List FileObject
  counter : Nat
deriving DecidableEq, Repr

/-- The initial state: empty pending set. -/
def initState : UState :=
  { files := [], counter := 0 }

/-- A rejection signal (`console.warn` in the source). -/
inductive Rejection where
  | typeRej (name : String)
  | sizeRej (name : String)
  | countRej (kept limit : Nat)
deriving DecidableEq, Repr

/-- Side channel of one `handleFiles` call: the rejection warnings and the arguments
of the `onFilesChange` observer invocations. -/
structure HFOut where
  rejections : List Rejection
  changeCalls : List (List FileObject)
deriving DecidableEq, Repr

/-! ## Intake validator -/

/-- `isValidFileType`: the file's MIME type matches some accepted pattern —
exact equality, or, for a pattern ending in `/*`, `file.type.startsWith(type.slice(0, -1))`. -/
def isValidFileType (cfg : Config) (f : FileData) : Bool :=
  cfg.acceptedTypes.any fun t =>
    if strEndsWith t "/*" then strStartsWith f.type (strDropLast t)
    else f.type == t

/-- The per-file filter body of `handleFiles`: `none` when the file survives,
`some r` when it is rejected (type checked before size, as in the source). -/
def validateFile (cfg : Config) (f : FileData) : Option Rejection :=
  if ¬ isValidFileType cfg f then some (.typeRej f.name)
  else if f.size > cfg.maxFileSize then some (.sizeRej f.name)
  else none

/-- The `FileObject` synthesized for the k-th entry ever created. -/
def mkFileObject (idGen : Nat → String) (k : Nat) (f : FileData) : FileObject :=
  { file := f
    id := idGen k
    preview := k
    name := f.name
    size := f.size
    type := f.type }

/-- `filesToAdd.map(file => ({...}))`: each map step draws the next identifier and
preview handle, starting at generator position `k`. -/
def mkFileObjects (idGen : Nat → String) (k : Nat) : List FileData → List FileObject
  | [] => []
  | f :: fs => mkFileObject idGen k f :: mkFileObjects idGen (k + 1) fs

/-- The `validFiles` of a batch: the files surviving the type and size filter. -/
def validPart (cfg : Config) (l : List FileData) : List FileData :=
  l.filter fun f => validateFile cfg f = none

/-- The type/size rejection warnings of a batch, in batch order. -/
def rejPart (cfg : Config) (l : List FileData) : List Rejection :=
  l.filterMap (validateFile cfg)

/-- `handleFiles`: filter the batch by type and size, truncate to
`remainingSlots = maxFiles - files.length` (JS `slice(0, remainingSlots)`),
synthesize entries, append them, and invoke `onFilesChange` with the updated list. -/
def handleFiles (cfg : Config) (idGen : Nat → String) (st : UState)
    (newFiles : List FileData) : UState × HFOut :=
  let validFiles := validPart cfg newFiles
  let valRejs := rejPart cfg newFiles
  let remainingSlots : Int := (cfg.maxFiles : Int) - (st.files.length : Int)
  let filesToAdd := jsSliceTo validFiles remainingSlots
  let countRejs : List Rejection :=
    if filesToAdd.length < validFiles.length then
      [.countRej filesToAdd.length cfg.maxFiles]
    else []
  let fileObjects := mkFileObjects idGen st.counter filesToAdd
  let updatedFiles := st.files ++ fileObjects
  ({ files := updatedFiles, counter := st.counter + fileObjects.length },
   { rejections := valRejs ++ countRejs, changeCalls := [updatedFiles] })

/-- Run a sequence of `handleFiles` (accept) calls from a starting state. -/
def runBatches (cfg : Config) (idGen : Nat → String) (st : UState)
    (batches : List (List FileData)) : UState :=
  batches.foldl (fun s b => (handleFiles cfg idGen s b).1) st

/-- `removeFile`: revoke the preview of the first entry with the given id (if any),
filter out every entry with that id, and invoke `onFilesChange` with the result.
Returns the new state, the revoked preview handles, and the observer invocations. -/
def removeFile (st : UState) (id : String) : UState × List Nat × List (List FileObject) :=
  let fileToRemove := st.files.find? fun f => f.id == id
  let revoked := match fileToRemove with
    | some f => [f.preview]
    | none => []
  let updatedFiles := st.files.filter fun f => f.id != id
  ({ st with files := updatedFiles }, revoked, [updatedFiles])

/-! ## formatFileSize -/

/-- The `sizes` unit table. -/
def sizesArr : List String := ["Bytes", "KB", "MB", "GB"]

/-- `(bytes / 1024^i).toFixed(2)` as an integer count of hundredths, i.e.
`round(100 * bytes / 1024^i)` with half rounded up. -/
def toFixed2 (bytes i : Nat) : Nat :=
  (200 * bytes + 1024 ^ i) / (2 * 1024 ^ i)

/-- `parseFloat` of a two-decimal fixed string, rendered back as JS would print the
number: trailing zeros of the fraction dropped, integer when the fraction is zero.
The argument is the value in hundredths. -/
def renderMantissa (n2 : Nat) : String :=
  let ip := n2 / 100
  let fr := n2 % 100
  if fr == 0 then toString ip
  else if fr % 10 == 0 then toString ip ++ "." ++ toString (fr / 10)
  else if fr < 10 then toString ip ++ ".0" ++ toString fr
  else toString ip ++ "." ++ toString fr

/-- `formatFileSize`: `'0 Bytes'` for 0, otherwise mantissa `bytes / 1024^i` to two
decimals with `i = floor(log bytes / log 1024)`; `sizes[i]` out of range is JS
`undefined`, which string concatenation prints as `"undefined"`. -/
def formatFileSize (bytes : Nat) : String :=
  if bytes == 0 then "0 Bytes"
  else
    let i := Nat.log 1024 bytes
    renderMantissa (toFixed2 bytes i) ++ " " ++ sizesArr.getD i "undefined"

/-- Modelled from the spec: the variant of `formatFileSize` the spec describes, with
the unit index clamped to the unit table (used only to compare against the source's
unclamped behavior). -/
def formatFileSizeClamped (bytes : Nat) : String :=
  if bytes == 0 then "0 Bytes"
  else
    let i := min (Nat.log 1024 bytes) (sizesArr.length - 1)
    renderMantissa (toFixed2 bytes i) ++ " " ++ sizesArr.getD i "undefined"

/-! ## Camera session

`startCamera` / `stopCamera` and the race between cancellation and the asynchronous
`getUserMedia` resolution.  Streams are named by `Nat` tokens.  The preview `<video>`
element is mounted exactly while `showCamera` is true, so `videoRef.current` is
non-null iff `showCamera`; unmounting discards its `srcObject` (`videoSrc`).
`stopped` records every stream whose tracks have been stopped. -/

structure CamState where
  showCamera : Bool
  stream : Option Nat
  stopped : List Nat
  videoSrc : Option Nat
deriving DecidableEq, Repr

/-- The idle component: no modal, no stream, nothing stopped, nothing bound. -/
def camInit : CamState :=
  { showCamera := false, stream := none, stopped := [], videoSrc := none }

/-- Event-loop turns touching the camera session:
* `startBegin` — `startCamera` runs up to the `await` (supported path): `setShowCamera(true)`.
* `resolveStream s` — `getUserMedia` resolves; `setStream(s)` runs and the 100 ms
  binding timeout for `s` is scheduled.
* `timeoutFire s` — that timeout fires: binds `videoRef.current.srcObject = s` only if
  the video element is mounted (`videoRef.current` non-null).
* `stopCamera` — stops the tracks of the currently held stream (if any), clears it,
  and hides the modal (unmounting the video element). -/
inductive CamEvent where
  | startBegin
  | resolveStream (s : Nat)
  | timeoutFire (s : Nat)
  | stopCamera
deriving DecidableEq, Repr

/-- One event-loop turn of the camera session, transcribing
`startCamera` / the `getUserMedia` continuation / the `setTimeout` callback /
`stopCamera`. -/
def camStep (st : CamState) : CamEvent → CamState
  | .startBegin => { st with showCamera := true }
  | .resolveStream s => { st with stream := some s }
  | .timeoutFire s => if st.showCamera then { st with videoSrc := some s } else st
  | .stopCamera =>
    let st1 := match st.stream with
      | some s => { st with stopped := st.stopped ++ [s], stream := none }
      | none => st
    { st1 with showCamera := false, videoSrc := none }

/-- Run a sequence of event-loop turns from the idle component. -/
def camRun (evs : List CamEvent) : CamState :=
  evs.foldl camStep camInit

/-! ## Photo capture and upload -/

/-- User-facing `alert` dialogs raised by capture and upload. -/
inductive Alert where
  | canvasUnsupported
  | cameraNotReady
  | captureFailed
  | uploadFailed
  | readyToUpload (n : Nat)
deriving DecidableEq, Repr

/-- The browser facts `capturePhoto` consults: whether the refs are populated,
whether `canvas.getContext('2d')` succeeds, the stream's frame dimensions, whether
`canvas.toBlob` yields a blob (and its byte size), and the dash-escaped ISO
timestamp. -/
structure CaptureEnv where
  hasVideoRef : Bool
  hasCanvasRef : Bool
  hasContext : Bool
  videoWidth : Nat
  videoHeight : Nat
  blobOk : Bool
  blobSize : Nat
  timestamp : String
deriving DecidableEq, Repr

/-- Side channel of one `capturePhoto` call. -/
structure CaptureOut where
  alerts : List Alert
  produced : Option FileData
  stopCalled : Bool
  intake : Option HFOut
deriving DecidableEq, Repr

/-- The name given to a captured file. -/
def captureFileName (ts : String) : String :=
  "camera-capture-" ++ ts ++ ".jpg"

/-- `capturePhoto`: guard on the refs, the 2d context, and the frame dimensions;
on success wrap the blob as a JPEG `File` and hand it to `handleFiles`, then call
`stopCamera` (recorded as `stopCalled`). -/
def capturePhoto (cfg : Config) (idGen : Nat → String) (st : UState)
    (env : CaptureEnv) : UState × CaptureOut :=
  if env.hasVideoRef && env.hasCanvasRef then
    if !env.hasContext then
      (st, { alerts := [.canvasUnsupported], produced := none, stopCalled := false,
             intake := none })
    else if env.videoWidth == 0 || env.videoHeight == 0 then
      (st, { alerts := [.cameraNotReady], produced := none, stopCalled := false,
             intake := none })
    else if env.blobOk then
      let f : FileData :=
        { name := captureFileName env.timestamp, size := env.blobSize, type := "image/jpeg" }
      let res := handleFiles cfg idGen st [f]
      (res.1, { alerts := [], produced := some f, stopCalled := true, intake := some res.2 })
    else
      (st, { alerts := [.captureFailed], produced := none, stopCalled := false,
             intake := none })
  else
    (st, { alerts := [], produced := none, stopCalled := false, intake := none })

/-- `handleUpload`: no-op on an empty pending set; otherwise `await onUpload(files)`
inside try/catch (an exception yields the upload-failed alert), or the default
ready-to-upload alert when no `onUpload` is supplied.  The pending set is never
written.  Returns the new state and the alerts raised. -/
def handleUpload (st : UState)
    (onUpload : Option (List FileObject → Except String Unit)) : UState × List Alert :=
  if st.files.length == 0 then (st, [])
  else
    match onUpload with
    | some up =>
      match up st.files with
      | .ok _ => (st, [])
      | .error _ => (st, [.uploadFailed])
    | none => (st, [.readyToUpload st.files.length])

/-! ## Basic lemmas about entry synthesis and intake -/

theorem mkFileObjects_length (idGen : Nat → String) (k : Nat) (l : List FileData) :
    (mkFileObjects idGen k l).length = l.length := by
  induction l generalizing k with
  | nil => rfl
  | cons f fs ih => simp [mkFileObjects, ih]

theorem mkFileObjects_map_file (idGen : Nat → String) (k : Nat) (l : List FileData) :
    (mkFileObjects idGen k l).map FileObject.file = l := by
  induction l generalizing k with
  | nil => rfl
  | cons f fs ih => simp [mkFileObjects, mkFileObject, ih]

theorem mkFileObjects_map_id (idGen : Nat → String) (k : Nat) (l : List FileData) :
    (mkFileObjects idGen k l).map FileObject.id = (List.range' k l.length).map idGen := by
  induction l generalizing k with
  | nil => rfl
  | cons f fs ih => simp [mkFileObjects, mkFileObject, List.range'_succ, ih]

theorem jsSliceTo_of_nonneg (l : List α) (e : Int) (h : 0 ≤ e) :
    jsSliceTo l e = l.take e.toNat := by
  simp [jsSliceTo, not_lt.mpr h]

/-- The files component of a `handleFiles` result, written out. -/
theorem handleFiles_files (cfg : Config) (idGen : Nat → String) (st : UState)
    (nf : List FileData) :
    (handleFiles cfg idGen st nf).1.files
      = st.files ++ mkFileObjects idGen st.counter
          (jsSliceTo (validPart cfg nf) ((cfg.maxFiles : Int) - (st.files.length : Int))) :=
  rfl

theorem handleFiles_counter (cfg : Config) (idGen : Nat → String) (st : UState)
    (nf : List FileData) :
    (handleFiles cfg idGen st nf).1.counter
      = st.counter + (mkFileObjects idGen st.counter
          (jsSliceTo (validPart cfg nf) ((cfg.maxFiles : Int) - (st.files.length : Int)))).length :=
  rfl

theorem handleFiles_changeCalls (cfg : Config) (idGen : Nat → String) (st : UState)
    (nf : List FileData) :
    (handleFiles cfg idGen st nf).2.changeCalls = [(handleFiles cfg idGen st nf).1.files] :=
  rfl

theorem handleFiles_rejections (cfg : Config) (idGen : Nat → String) (st : UState)
    (nf : List FileData) :
    (handleFiles cfg idGen st nf).2.rejections
      = rejPart cfg nf ++
        (if (jsSliceTo (validPart cfg nf)
              ((cfg.maxFiles : Int) - (st.files.length : Int))).length
            < (validPart cfg nf).length then
          [Rejection.countRej (jsSliceTo (validPart cfg nf)
              ((cfg.maxFiles : Int) - (st.files.length : Int))).length cfg.maxFiles]
        else []) :=
  rfl

theorem runBatches_nil (cfg : Config) (idGen : Nat → String) (st : UState) :
    runBatches cfg idGen st [] = st :=
  rfl

theorem runBatches_cons (cfg : Config) (idGen : Nat → String) (st : UState)
    (b : List FileData) (bs : List (List FileData)) :
    runBatches cfg idGen st (b :: bs)
      = runBatches cfg idGen (handleFiles cfg idGen st b).1 bs :=
  rfl

/-- One `handleFiles` call preserves the `maxFiles` bound on the pending set. -/
theorem handleFiles_length_le (cfg : Config) (idGen : Nat → String) (st : UState)
    (nf : List FileData) (h : st.files.length ≤ cfg.maxFiles) :
    (handleFiles cfg idGen st nf).1.files.length ≤ cfg.maxFiles := by
  have he : (0 : Int) ≤ (cfg.maxFiles : Int) - (st.files.length : Int) := by
    omega
  rw [handleFiles_files, List.length_append, mkFileObjects_length,
    jsSliceTo_of_nonneg _ _ he, List.length_take]
  omega

/-- Every state reached by a sequence of accept calls keeps the bound. -/
theorem runBatches_length_le (cfg : Config) (idGen : Nat → String)
    (bs : List (List FileData)) :
    ∀ st : UState, st.files.length ≤ cfg.maxFiles →
      (runBatches cfg idGen st bs).files.length ≤ cfg.maxFiles := by
  induction bs with
  | nil => intro st h; exact h
  | cons b bs ih =>
    intro st h
    rw [runBatches_cons]
    exact ih _ (handleFiles_length_le cfg idGen st b h)

/-! ## Claim theorems -/

/-- C1: starting from the empty pending set, after each accept (`handleFiles`) call
the pending set holds at most `maxFiles` entries; and when the valid files of a batch
exceed `remainingSlots = maxFiles - currentPendingCount`, exactly the first
`remainingSlots` of them are appended in original order and a count-limit rejection
is signalled for the rest. -/
theorem accept_maxFiles_invariant (cfg : Config) (idGen : Nat → String)
    (bs : List (List FileData)) (batch : List FileData) :
    (handleFiles cfg idGen (runBatches cfg idGen initState bs) batch).1.files.length
        ≤ cfg.maxFiles ∧
    (cfg.maxFiles - (runBatches cfg idGen initState bs).files.length
        < (validPart cfg batch).length →
      (handleFiles cfg idGen (runBatches cfg idGen initState bs) batch).1.files.map
          FileObject.file
        = (runBatches cfg idGen initState bs).files.map FileObject.file
          ++ (validPart cfg batch).take
              (cfg.maxFiles - (runBatches cfg idGen initState bs).files.length) ∧
      Rejection.countRej
          (cfg.maxFiles - (runBatches cfg idGen initState bs).files.length) cfg.maxFiles
        ∈ (handleFiles cfg idGen (runBatches cfg idGen initState bs) batch).2.rejections) := by
  have hst : (runBatches cfg idGen initState bs).files.length ≤ cfg.maxFiles :=
    runBatches_length_le cfg idGen bs initState (Nat.zero_le _)
  have he : (0 : Int) ≤ (cfg.maxFiles : Int)
      - ((runBatches cfg idGen initState bs).files.length : Int) := by omega
  have htoNat : ((cfg.maxFiles : Int)
      - ((runBatches cfg idGen initState bs).files.length : Int)).toNat
      = cfg.maxFiles - (runBatches cfg idGen initState bs).files.length := by omega
  refine ⟨handleFiles_length_le cfg idGen _ batch hst, fun hover => ⟨?_, ?_⟩⟩
  · rw [handleFiles_files, List.map_append, mkFileObjects_map_file,
      jsSliceTo_of_nonneg _ _ he, htoNat]
  · rw [handleFiles_rejections, jsSliceTo_of_nonneg _ _ he, htoNat, List.length_take]
    have hmin : min (cfg.maxFiles - (runBatches cfg idGen initState bs).files.length)
        (validPart cfg batch).length
        = cfg.maxFiles - (runBatches cfg idGen initState bs).files.length := by omega
    rw [hmin, if_pos hover]
    exact List.mem_append_right _ (List.mem_singleton.mpr rfl)

/-- A concrete instance of C1 (the spec's end-to-end example): `maxFiles = 2`,
accepting three valid image files keeps exactly the first two and signals a
count-limit rejection. -/
theorem accept_maxFiles_invariant_witness :
    (2 : Nat) - (runBatches ⟨10 * 1024 * 1024, ["image/*"], 2⟩ (fun n => toString n)
        initState []).files.length
      < (validPart ⟨10 * 1024 * 1024, ["image/*"], 2⟩
          [⟨"a.png", 5, "image/png"⟩, ⟨"b.png", 6, "image/png"⟩,
           ⟨"c.png", 7, "image/png"⟩]).length ∧
    ((handleFiles ⟨10 * 1024 * 1024, ["image/*"], 2⟩ (fun n => toString n)
        (runBatches ⟨10 * 1024 * 1024, ["image/*"], 2⟩ (fun n => toString n) initState [])
        [⟨"a.png", 5, "image/png"⟩, ⟨"b.png", 6, "image/png"⟩,
         ⟨"c.png", 7, "image/png"⟩]).1.files.length ≤ 2 ∧
      (handleFiles ⟨10 * 1024 * 1024, ["image/*"], 2⟩ (fun n => toString n)
        (runBatches ⟨10 * 1024 * 1024, ["image/*"], 2⟩ (fun n => toString n) initState [])
        [⟨"a.png", 5, "image/png"⟩, ⟨"b.png", 6, "image/png"⟩,
         ⟨"c.png", 7, "image/png"⟩]).1.files.map FileObject.file
        = (runBatches ⟨10 * 1024 * 1024, ["image/*"], 2⟩ (fun n => toString n)
            initState []).files.map FileObject.file
          ++ (validPart ⟨10 * 1024 * 1024, ["image/*"], 2⟩
              [⟨"a.png", 5, "image/png"⟩, ⟨"b.png", 6, "image/png"⟩,
               ⟨"c.png", 7, "image/png"⟩]).take 2) := by
  have h := accept_maxFiles_invariant ⟨10 * 1024 * 1024, ["image/*"], 2⟩
    (fun n => toString n) []
    [⟨"a.png", 5, "image/png"⟩, ⟨"b.png", 6, "image/png"⟩, ⟨"c.png", 7, "image/png"⟩]
  exact ⟨by decide, h.1, (h.2 (by decide)).1⟩

theorem UState.ext_fields (a b : UState) (h1 : a.files = b.files)
    (h2 : a.counter = b.counter) : a = b := by
  cases a
  cases b
  cases h1
  cases h2
  rfl

theorem validateFile_eq_none_iff (cfg : Config) (f : FileData) :
    validateFile cfg f = none ↔
      isValidFileType cfg f = true ∧ f.size ≤ cfg.maxFileSize := by
  by_cases h1 : isValidFileType cfg f = true
  · by_cases h2 : f.size > cfg.maxFileSize
    · simp [validateFile, h1, h2]
    · simp [validateFile, h1, h2]
      omega
  · simp [validateFile, h1]

theorem mem_mkFileObjects_file (idGen : Nat → String) (k : Nat) (l : List FileData)
    (e : FileObject) (h : e ∈ mkFileObjects idGen k l) : e.file ∈ l := by
  have h2 := List.mem_map_of_mem FileObject.file h
  rwa [mkFileObjects_map_file] at h2

theorem jsSliceTo_subset (l : List α) (e : Int) : jsSliceTo l e ⊆ l := by
  unfold jsSliceTo
  exact List.take_subset _ _

theorem of_mem_validPart (cfg : Config) (l : List FileData) (f : FileData)
    (h : f ∈ validPart cfg l) : validateFile cfg f = none := by
  have h2 := List.mem_filter.mp h
  simpa using h2.2

/-- Every entry present after a `handleFiles` call was either already present or
was built from a file that passed the type and size validation. -/
theorem handleFiles_new_entries_valid (cfg : Config) (idGen : Nat → String)
    (st : UState) (batch : List FileData) (e : FileObject)
    (h : e ∈ (handleFiles cfg idGen st batch).1.files) :
    e ∈ st.files ∨ (isValidFileType cfg e.file = true ∧ e.file.size ≤ cfg.maxFileSize) := by
  rw [handleFiles_files] at h
  rcases List.mem_append.mp h with hold | hnew
  · exact Or.inl hold
  · refine Or.inr ((validateFile_eq_none_iff cfg e.file).mp ?_)
    exact of_mem_validPart cfg batch e.file
      (jsSliceTo_subset _ _ (mem_mkFileObjects_file idGen st.counter _ e hnew))

/-- C5: a file whose MIME type matches no accepted pattern (exact match, or
prefix match for a pattern ending in `/*`) is never turned into a pending entry,
and a type rejection is reported for it. -/
theorem invalid_type_rejected (cfg : Config) (idGen : Nat → String) (st : UState)
    (batch : List FileData) (f : FileData) (hf : f ∈ batch)
    (hty : isValidFileType cfg f = false) :
    Rejection.typeRej f.name ∈ (handleFiles cfg idGen st batch).2.rejections ∧
    ∀ e ∈ (handleFiles cfg idGen st batch).1.files,
      e ∈ st.files ∨ isValidFileType cfg e.file = true := by
  constructor
  · rw [handleFiles_rejections]
    refine List.mem_append_left _ (List.mem_filterMap.mpr ⟨f, hf, ?_⟩)
    simp [validateFile, hty]
  · intro e he
    rcases handleFiles_new_entries_valid cfg idGen st batch e he with hold | hval
    · exact Or.inl hold
    · exact Or.inr hval.1

/-- A concrete instance of C5: with the default props, a `text/plain` file is
type-rejected and adds no entry. -/
theorem invalid_type_rejected_witness :
    (⟨"n.txt", 5, "text/plain"⟩ : FileData) ∈ [(⟨"n.txt", 5, "text/plain"⟩ : FileData)] ∧
    isValidFileType defaultConfig ⟨"n.txt", 5, "text/plain"⟩ = false ∧
    Rejection.typeRej "n.txt"
      ∈ (handleFiles defaultConfig (fun n => toString n) initState
          [⟨"n.txt", 5, "text/plain"⟩]).2.rejections ∧
    ∀ e ∈ (handleFiles defaultConfig (fun n => toString n) initState
        [⟨"n.txt", 5, "text/plain"⟩]).1.files,
      e ∈ initState.files ∨ isValidFileType defaultConfig e.file = true := by
  have h := invalid_type_rejected defaultConfig (fun n => toString n) initState
    [⟨"n.txt", 5, "text/plain"⟩] ⟨"n.txt", 5, "text/plain"⟩ (by decide) (by decide)
  exact ⟨by decide, by decide, h.1, h.2⟩

/-- C10: the size check is strict, so a file whose size equals `maxFileSize`
exactly is accepted (appended to the pending set, no rejection) whenever its type
matches and a slot remains. -/
theorem boundary_size_accepted (cfg : Config) (idGen : Nat → String) (st : UState)
    (f : FileData) (hty : isValidFileType cfg f = true)
    (hsz : f.size = cfg.maxFileSize) (hslot : st.files.length < cfg.maxFiles) :
    (handleFiles cfg idGen st [f]).1.files.map FileObject.file
      = st.files.map FileObject.file ++ [f] ∧
    (handleFiles cfg idGen st [f]).2.rejections = [] := by
  have hval : validateFile cfg f = none :=
    (validateFile_eq_none_iff cfg f).mpr ⟨hty, le_of_eq hsz⟩
  have hvp : validPart cfg [f] = [f] := by
    simp [validPart, hval]
  have he : (0 : Int) ≤ (cfg.maxFiles : Int) - (st.files.length : Int) := by omega
  have hslice : jsSliceTo (validPart cfg [f])
      ((cfg.maxFiles : Int) - (st.files.length : Int)) = [f] := by
    rw [hvp, jsSliceTo_of_nonneg _ _ he]
    refine List.take_of_length_le ?_
    simp
    omega
  constructor
  · rw [handleFiles_files, List.map_append, mkFileObjects_map_file, hslice]
  · rw [handleFiles_rejections, hslice, hvp]
    simp [rejPart, hval]

/-- A concrete instance of C10: a 10 MiB file is accepted under the default
10 MiB limit. -/
theorem boundary_size_accepted_witness :
    isValidFileType defaultConfig ⟨"b.png", 10 * 1024 * 1024, "image/png"⟩ = true ∧
    (handleFiles defaultConfig (fun n => toString n) initState
        [⟨"b.png", 10 * 1024 * 1024, "image/png"⟩]).1.files.map FileObject.file
      = initState.files.map FileObject.file ++ [⟨"b.png", 10 * 1024 * 1024, "image/png"⟩] ∧
    (handleFiles defaultConfig (fun n => toString n) initState
        [⟨"b.png", 10 * 1024 * 1024, "image/png"⟩]).2.rejections = [] := by
  have h := boundary_size_accepted defaultConfig (fun n => toString n) initState
    ⟨"b.png", 10 * 1024 * 1024, "image/png"⟩ (by decide) (by decide) (by decide)
  exact ⟨by decide, h.1, h.2⟩

/-- C3 counterexample: accepting a single oversized (valid-type) file leaves the
pending set empty, yet the `onFilesChange` observer IS invoked — `handleFiles`
runs `setFiles` unconditionally and the updater calls `onFilesChange(updatedFiles)`
even when no file survived validation.  The claim says the observer is not called. -/
theorem oversized_observer_called_counterexample :
    (handleFiles defaultConfig (fun n => toString n) initState
        [⟨"big.png", 10 * 1024 * 1024 + 1, "image/png"⟩]).2.changeCalls = [[]] ∧
    (handleFiles defaultConfig (fun n => toString n) initState
        [⟨"big.png", 10 * 1024 * 1024 + 1, "image/png"⟩]).2.changeCalls ≠ [] := by
  decide

/-- C3 (amended): a batch of only oversized files leaves the component state
unchanged and signals a size rejection for each one whose type is accepted, but
`onFilesChange` is still invoked once, with the unchanged pending list; and in any
batch, an oversized file never becomes a pending entry. -/
theorem oversized_batch_behavior (cfg : Config) (idGen : Nat → String) (st : UState)
    (batch : List FileData) (hall : ∀ f ∈ batch, cfg.maxFileSize < f.size) :
    (handleFiles cfg idGen st batch).1 = st ∧
    (handleFiles cfg idGen st batch).2.changeCalls = [st.files] ∧
    (∀ f ∈ batch, isValidFileType cfg f = true →
      Rejection.sizeRej f.name ∈ (handleFiles cfg idGen st batch).2.rejections) ∧
    ∀ (batch' : List FileData) (e : FileObject),
      e ∈ (handleFiles cfg idGen st batch').1.files → e ∉ st.files →
        e.file.size ≤ cfg.maxFileSize := by
  have hvp : validPart cfg batch = [] := by
    rw [validPart, List.filter_eq_nil_iff]
    intro f hf
    have hsz := hall f hf
    simp only [decide_eq_true_eq]
    intro hnone
    have := ((validateFile_eq_none_iff cfg f).mp hnone).2
    omega
  have hslice : jsSliceTo (validPart cfg batch)
      ((cfg.maxFiles : Int) - (st.files.length : Int)) = [] := by
    rw [hvp]
    unfold jsSliceTo
    exact List.take_nil
  have hstate : (handleFiles cfg idGen st batch).1 = st := by
    have h1 : (handleFiles cfg idGen st batch).1.files = st.files := by
      rw [handleFiles_files, hslice]
      simp [mkFileObjects]
    have h2 : (handleFiles cfg idGen st batch).1.counter = st.counter := by
      rw [handleFiles_counter, hslice]
      simp [mkFileObjects]
    exact UState.ext_fields _ _ h1 h2
  refine ⟨hstate, ?_, ?_, ?_⟩
  · rw [handleFiles_changeCalls, hstate]
  · intro f hf hty
    rw [handleFiles_rejections]
    refine List.mem_append_left _ (List.mem_filterMap.mpr ⟨f, hf, ?_⟩)
    have hsz := hall f hf
    simp [validateFile, hty, hsz]
  · intro batch' e he hnew
    rcases handleFiles_new_entries_valid cfg idGen st batch' e he with hold | hval
    · exact absurd hold hnew
    · exact hval.2

/-- A concrete instance of C3 (amended): one 10 MiB + 1 file under the default
10 MiB limit is size-rejected, the state survives unchanged, and the observer is
invoked with the unchanged (empty) list. -/
theorem oversized_batch_behavior_witness :
    (∀ f ∈ [(⟨"big.png", 10 * 1024 * 1024 + 1, "image/png"⟩ : FileData)],
      defaultConfig.maxFileSize < f.size) ∧
    (handleFiles defaultConfig (fun n => toString n) initState
        [⟨"big.png", 10 * 1024 * 1024 + 1, "image/png"⟩]).1 = initState ∧
    Rejection.sizeRej "big.png"
      ∈ (handleFiles defaultConfig (fun n => toString n) initState
          [⟨"big.png", 10 * 1024 * 1024 + 1, "image/png"⟩]).2.rejections := by
  have h := oversized_batch_behavior defaultConfig (fun n => toString n) initState
    [⟨"big.png", 10 * 1024 * 1024 + 1, "image/png"⟩] (by decide)
  exact ⟨by decide, h.1,
    h.2.2.1 ⟨"big.png", 10 * 1024 * 1024 + 1, "image/png"⟩ (by decide) (by decide)⟩

/-- C6: `removeFile` is idempotent — the second call with the same identifier
leaves the pending set unchanged and revokes no preview handle a second time;
and removing an identifier that is not present is a no-op with no revocation. -/
theorem removeFile_idempotent (st : UState) (s : String) :
    (removeFile (removeFile st s).1 s).1 = (removeFile st s).1 ∧
    (removeFile (removeFile st s).1 s).2.1 = [] ∧
    (s ∉ st.files.map FileObject.id →
      (removeFile st s).1 = st ∧ (removeFile st s).2.1 = []) := by
  have habsent : ∀ x ∈ (removeFile st s).1.files, (x.id == s) = false := by
    intro x hx
    have hx2 := List.mem_filter.mp hx
    simpa [bne] using hx2.2
  have hfind : (removeFile st s).1.files.find? (fun f => f.id == s) = none := by
    rw [List.find?_eq_none]
    intro x hx
    simp [habsent x hx]
  have hfilter : ((removeFile st s).1.files.filter fun f => f.id != s)
      = (removeFile st s).1.files := by
    rw [List.filter_eq_self]
    intro x hx
    simp [bne, habsent x hx]
  refine ⟨?_, ?_, ?_⟩
  · show ({ (removeFile st s).1 with
        files := (removeFile st s).1.files.filter fun f => f.id != s })
      = (removeFile st s).1
    rw [hfilter]
  · show (match (removeFile st s).1.files.find? (fun f => f.id == s) with
      | some f => [f.preview]
      | none => []) = []
    rw [hfind]
  · intro hno
    have habsent0 : ∀ x ∈ st.files, (x.id == s) = false := by
      intro x hx
      have : x.id ≠ s := fun h => hno (h ▸ List.mem_map_of_mem FileObject.id hx)
      simp [this]
    have hfind0 : st.files.find? (fun f => f.id == s) = none := by
      rw [List.find?_eq_none]
      intro x hx
      simp [habsent0 x hx]
    have hfilter0 : (st.files.filter fun f => f.id != s) = st.files := by
      rw [List.filter_eq_self]
      intro x hx
      simp [bne, habsent0 x hx]
    constructor
    · show ({ st with files := st.files.filter fun f => f.id != s }) = st
      rw [hfilter0]
    · show (match st.files.find? (fun f => f.id == s) with
        | some f => [f.preview]
        | none => []) = []
      rw [hfind0]

/-- A concrete instance of C6: removing an identifier twice from a one-entry set,
and removing an absent identifier. -/
theorem removeFile_idempotent_witness :
    "k0" ∉ ([] : List FileObject).map FileObject.id ∧
    (removeFile initState "k0").1 = initState ∧
    (removeFile initState "k0").2.1 = [] := by
  have h := removeFile_idempotent initState "k0"
  have h2 := h.2.2 (by decide)
  exact ⟨by decide, h2.1, h2.2⟩

theorem formatFileSize_pos (b : Nat) (h : b ≠ 0) :
    formatFileSize b
      = renderMantissa (toFixed2 b (Nat.log 1024 b)) ++ " "
        ++ sizesArr.getD (Nat.log 1024 b) "undefined" := by
  simp [formatFileSize, h]

theorem formatFileSizeClamped_pos (b : Nat) (h : b ≠ 0) :
    formatFileSizeClamped b
      = renderMantissa (toFixed2 b (min (Nat.log 1024 b) (sizesArr.length - 1))) ++ " "
        ++ sizesArr.getD (min (Nat.log 1024 b) (sizesArr.length - 1)) "undefined" := by
  simp [formatFileSizeClamped, h]

/-- C4 counterexample: the source does not clamp the unit index to the table — at
`1024 ^ 4` (1 TiB) the index is 4, `sizes[4]` is JS `undefined`, and the output is
`"1 undefined"`, not the `"1024 GB"` a clamped index would give. -/
theorem formatFileSize_unclamped_counterexample :
    formatFileSize (1024 ^ 4) = "1 undefined" ∧
    formatFileSizeClamped (1024 ^ 4) = "1024 GB" ∧
    formatFileSize (1024 ^ 4) ≠ formatFileSizeClamped (1024 ^ 4) := by
  have h4 : Nat.log 1024 (1024 ^ 4) = 4 := Nat.log_pow (by norm_num) 4
  have h1 : formatFileSize (1024 ^ 4) = "1 undefined" := by
    rw [formatFileSize_pos _ (by positivity), h4]
    rfl
  have h2 : formatFileSizeClamped (1024 ^ 4) = "1024 GB" := by
    rw [formatFileSizeClamped_pos _ (by positivity), h4]
    rfl
  refine ⟨h1, h2, ?_⟩
  rw [h1, h2]
  decide

/-- C4 (amended): `formatFileSize` uses base-1024 units, formats 0 as `"0 Bytes"`,
and for `0 < b < 1024 ^ 4` picks the unit of index `⌊log b / log 1024⌋` from
{Bytes, KB, MB, GB} — the largest unit of magnitude ≤ b — with the mantissa rounded
to two decimals; the index is NOT clamped, so the table is only respected below
`1024 ^ 4`.  The spec's examples hold. -/
theorem formatFileSize_spec :
    formatFileSize 0 = "0 Bytes" ∧
    formatFileSize 1024 = "1 KB" ∧
    formatFileSize 1536 = "1.5 KB" ∧
    formatFileSize (10 * 1024 * 1024) = "10 MB" ∧
    ∀ b : Nat, 0 < b → b < 1024 ^ 4 →
      1024 ^ Nat.log 1024 b ≤ b ∧ b < 1024 ^ (Nat.log 1024 b + 1) ∧
      Nat.log 1024 b < 4 ∧
      formatFileSize b
        = renderMantissa (toFixed2 b (Nat.log 1024 b)) ++ " "
          ++ sizesArr.getD (Nat.log 1024 b) "undefined" ∧
      sizesArr.getD (Nat.log 1024 b) "undefined" ∈ sizesArr := by
  have l1 : Nat.log 1024 1024 = 1 :=
    Nat.log_eq_of_pow_le_of_lt_pow (by norm_num) (by norm_num)
  have l2 : Nat.log 1024 1536 = 1 :=
    Nat.log_eq_of_pow_le_of_lt_pow (by norm_num) (by norm_num)
  have l3 : Nat.log 1024 (10 * 1024 * 1024) = 2 :=
    Nat.log_eq_of_pow_le_of_lt_pow (by norm_num) (by norm_num)
  refine ⟨rfl, ?_, ?_, ?_, ?_⟩
  · rw [formatFileSize_pos _ (by norm_num), l1]
    rfl
  · rw [formatFileSize_pos _ (by norm_num), l2]
    rfl
  · rw [formatFileSize_pos _ (by norm_num), l3]
    rfl
  · intro b hb hb4
    have hble : 1024 ^ Nat.log 1024 b ≤ b := Nat.pow_log_le_self 1024 (by omega)
    have hblt : b < 1024 ^ (Nat.log 1024 b + 1) :=
      Nat.lt_pow_succ_log_self (by norm_num) b
    have hlog4 : Nat.log 1024 b < 4 := by
      by_contra hge
      push_neg at hge
      have : (1024 : Nat) ^ 4 ≤ 1024 ^ Nat.log 1024 b :=
        Nat.pow_le_pow_right (by norm_num) hge
      omega
    refine ⟨hble, hblt, hlog4, formatFileSize_pos b (by omega), ?_⟩
    have hcases : Nat.log 1024 b = 0 ∨ Nat.log 1024 b = 1 ∨ Nat.log 1024 b = 2 ∨
        Nat.log 1024 b = 3 := by omega
    rcases hcases with h | h | h | h <;> rw [h] <;> decide

/-- A concrete instance of C4 (amended): the general clause evaluated at 1536. -/
theorem formatFileSize_spec_witness :
    (0 : Nat) < 1536 ∧ (1536 : Nat) < 1024 ^ 4 ∧
    (1024 ^ Nat.log 1024 1536 ≤ 1536 ∧ 1536 < 1024 ^ (Nat.log 1024 1536 + 1) ∧
      Nat.log 1024 1536 < 4 ∧
      formatFileSize 1536
        = renderMantissa (toFixed2 1536 (Nat.log 1024 1536)) ++ " "
          ++ sizesArr.getD (Nat.log 1024 1536) "undefined" ∧
      sizesArr.getD (Nat.log 1024 1536) "undefined" ∈ sizesArr) := by
  refine ⟨by norm_num, by norm_num, ?_⟩
  exact formatFileSize_spec.2.2.2.2 1536 (by norm_num) (by norm_num)

/-- C7: a capture request while the stream has zero frame dimensions (and the
rasterization context is available) produces no file, leaves the pending set
untouched, raises the not-ready alert, and does not stop the camera — the session
stays Live. -/
theorem capture_not_ready (cfg : Config) (idGen : Nat → String) (st : UState)
    (env : CaptureEnv) (hv : env.hasVideoRef = true) (hc : env.hasCanvasRef = true)
    (hctx : env.hasContext = true)
    (hdim : env.videoWidth = 0 ∨ env.videoHeight = 0) :
    capturePhoto cfg idGen st env
      = (st, { alerts := [Alert.cameraNotReady], produced := none,
               stopCalled := false, intake := none }) := by
  have hd : (env.videoWidth == 0 || env.videoHeight == 0) = true := by
    rcases hdim with h | h <;> simp [h]
  simp [capturePhoto, hv, hc, hctx, hd]

/-- A concrete instance of C7: zero-dimension capture on a mounted modal. -/
theorem capture_not_ready_witness :
    capturePhoto defaultConfig (fun n => toString n) initState
        ⟨true, true, true, 0, 0, true, 9, "ts"⟩
      = (initState, { alerts := [Alert.cameraNotReady], produced := none,
                      stopCalled := false, intake := none }) :=
  capture_not_ready defaultConfig (fun n => toString n) initState
    ⟨true, true, true, 0, 0, true, 9, "ts"⟩ rfl rfl rfl (Or.inl rfl)

/-- C8: when the caller-supplied `onUpload` throws, `handleUpload` catches the
exception, reports the upload-failed alert, and leaves the pending set exactly as
it was (when the pending set is empty `onUpload` is never invoked and no alert is
raised, but the set is still unchanged). -/
theorem upload_failure_preserves_pending (st : UState)
    (up : List FileObject → Except String Unit) (e : String)
    (herr : up st.files = Except.error e) :
    (handleUpload st (some up)).1 = st ∧
    (st.files ≠ [] → (handleUpload st (some up)).2 = [Alert.uploadFailed]) := by
  by_cases hempty : st.files.length = 0
  · refine ⟨by simp [handleUpload, hempty], fun hne => ?_⟩
    exact absurd (List.length_eq_zero.mp hempty) hne
  · exact ⟨by simp [handleUpload, hempty, herr], fun _ => by
      simp [handleUpload, hempty, herr]⟩

/-- A concrete instance of C8: a one-entry pending set and an `onUpload` that
always throws. -/
theorem upload_failure_preserves_pending_witness :
    (fun _ : List FileObject => (Except.error "boom" : Except String Unit))
        (UState.mk [⟨⟨"a.png", 5, "image/png"⟩, "id0", 0, "a.png", 5, "image/png"⟩] 1).files
      = Except.error "boom" ∧
    (handleUpload
        (UState.mk [⟨⟨"a.png", 5, "image/png"⟩, "id0", 0, "a.png", 5, "image/png"⟩] 1)
        (some fun _ => Except.error "boom")).1
      = UState.mk [⟨⟨"a.png", 5, "image/png"⟩, "id0", 0, "a.png", 5, "image/png"⟩] 1 ∧
    (handleUpload
        (UState.mk [⟨⟨"a.png", 5, "image/png"⟩, "id0", 0, "a.png", 5, "image/png"⟩] 1)
        (some fun _ => Except.error "boom")).2 = [Alert.uploadFailed] := by
  have h := upload_failure_preserves_pending
    (UState.mk [⟨⟨"a.png", 5, "image/png"⟩, "id0", 0, "a.png", 5, "image/png"⟩] 1)
    (fun _ => Except.error "boom") "boom" rfl
  exact ⟨rfl, h.1, h.2 (by decide)⟩

/-- C2 counterexample: cancel (`stopCamera`) while acquisition is in flight, then
the stream resolves.  Contrary to the claim, the late stream's tracks are never
stopped and the stream IS retained in the session state (`setStream` runs
unconditionally after the `await`). -/
theorem camera_cancel_race_counterexample :
    (camRun [CamEvent.startBegin, CamEvent.stopCamera, CamEvent.resolveStream 7,
        CamEvent.timeoutFire 7]).stream = some 7 ∧
    (camRun [CamEvent.startBegin, CamEvent.stopCamera, CamEvent.resolveStream 7,
        CamEvent.timeoutFire 7]).stopped = [] := by
  decide

/-- C2 (amended): after a cancel that precedes the `getUserMedia` resolution, the
late-arriving stream is retained in the session state with its tracks never
stopped; it is, however, never bound to the preview surface — the modal is closed,
so the video element is unmounted at every step of the race. -/
theorem camera_cancel_race_leak (s : Nat) :
    camRun [CamEvent.startBegin, CamEvent.stopCamera, CamEvent.resolveStream s,
        CamEvent.timeoutFire s]
      = { showCamera := false, stream := some s, stopped := [], videoSrc := none } ∧
    (camRun [CamEvent.startBegin]).videoSrc = none ∧
    (camRun [CamEvent.startBegin, CamEvent.stopCamera]).videoSrc = none ∧
    (camRun [CamEvent.startBegin, CamEvent.stopCamera,
        CamEvent.resolveStream s]).videoSrc = none ∧
    (camRun [CamEvent.startBegin, CamEvent.stopCamera, CamEvent.resolveStream s,
        CamEvent.timeoutFire s]).videoSrc = none := by
  exact ⟨rfl, rfl, rfl, rfl, rfl⟩

/-- The identifiers of the pending entries are exactly the generator's outputs at
positions `0..counter`, in order; one `handleFiles` call preserves this. -/
theorem handleFiles_map_id (cfg : Config) (idGen : Nat → String) (st : UState)
    (nf : List FileData)
    (h : st.files.map FileObject.id = (List.range' 0 st.counter).map idGen) :
    (handleFiles cfg idGen st nf).1.files.map FileObject.id
      = (List.range' 0 (handleFiles cfg idGen st nf).1.counter).map idGen := by
  rw [handleFiles_files, handleFiles_counter, List.map_append, h, mkFileObjects_map_id,
    mkFileObjects_length, ← List.map_append]
  congr 1
  have happ := List.range'_append 0 st.counter
    (jsSliceTo (validPart cfg nf)
      ((cfg.maxFiles : Int) - (st.files.length : Int))).length 1
  simpa [Nat.add_comm] using happ

theorem runBatches_map_id (cfg : Config) (idGen : Nat → String)
    (bs : List (List FileData)) :
    ∀ st : UState,
      st.files.map FileObject.id = (List.range' 0 st.counter).map idGen →
      (runBatches cfg idGen st bs).files.map FileObject.id
        = (List.range' 0 (runBatches cfg idGen st bs).counter).map idGen := by
  induction bs with
  | nil => intro st h; exact h
  | cons b bs ih =>
    intro st h
    rw [runBatches_cons]
    exact ih _ (handleFiles_map_id cfg idGen st b h)

/-- When the entry identifiers are pairwise distinct, filtering out one present
entry's identifier removes exactly that entry. -/
theorem filter_ne_erase (l : List FileObject) (e : FileObject)
    (hnd : (l.map FileObject.id).Nodup) (he : e ∈ l) :
    (l.filter fun f => f.id != e.id) = l.erase e := by
  induction l with
  | nil => cases he
  | cons a l ih =>
    rw [List.map_cons, List.nodup_cons] at hnd
    rcases List.mem_cons.mp he with rfl | hel
    · rw [List.erase_cons_head, List.filter_cons_of_neg (by simp)]
      refine List.filter_eq_self.mpr fun x hx => ?_
      have hne : x.id ≠ e.id :=
        fun hh => hnd.1 (hh ▸ List.mem_map_of_mem FileObject.id hx)
      simpa [bne] using hne
    · have hane : a.id ≠ e.id :=
        fun hh => hnd.1 (hh ▸ List.mem_map_of_mem FileObject.id hel)
      rw [List.filter_cons_of_pos (by simpa [bne] using hane),
        List.erase_cons_tail (by simpa using fun hh => hane (congrArg FileObject.id hh)),
        ih hnd.2 hel]

/-- C9 counterexample: the identifier generator (`Math.random()`-based) gives no
uniqueness guarantee.  With a generator that repeats a value, two distinct entries
in the pending set carry the same identifier, and `removeFile` of that identifier
deletes both entries instead of exactly the intended one. -/
theorem duplicate_id_counterexample :
    (runBatches defaultConfig (fun _ => "aaaaaaaaa") initState
        [[⟨"a.png", 5, "image/png"⟩], [⟨"b.png", 6, "image/png"⟩]]).files.map
        FileObject.id
      = ["aaaaaaaaa", "aaaaaaaaa"] ∧
    ¬ ((runBatches defaultConfig (fun _ => "aaaaaaaaa") initState
        [[⟨"a.png", 5, "image/png"⟩], [⟨"b.png", 6, "image/png"⟩]]).files.map
        FileObject.id).Nodup ∧
    (runBatches defaultConfig (fun _ => "aaaaaaaaa") initState
        [[⟨"a.png", 5, "image/png"⟩], [⟨"b.png", 6, "image/png"⟩]]).files.length = 2 ∧
    (removeFile (runBatches defaultConfig (fun _ => "aaaaaaaaa") initState
        [[⟨"a.png", 5, "image/png"⟩], [⟨"b.png", 6, "image/png"⟩]]) "aaaaaaaaa").1.files
      = [] := by
  refine ⟨rfl, ?_, rfl, rfl⟩
  decide

/-- C9 (amended): each entry's identifier is drawn from a fresh generator position
and is stable for the entry's lifetime, so identifiers are unique across all
entries ever in the pending set PROVIDED the generator never repeats a value; in
that case `removeFile` removes exactly the intended entry.  The source's
`Math.random()`-based generator itself gives no such guarantee. -/
theorem unique_ids_of_injective_gen (cfg : Config) (idGen : Nat → String)
    (bs : List (List FileData)) (hinj : ∀ i j : Nat, idGen i = idGen j → i = j) :
    ((runBatches cfg idGen initState bs).files.map FileObject.id).Nodup ∧
    ∀ e ∈ (runBatches cfg idGen initState bs).files,
      (removeFile (runBatches cfg idGen initState bs) e.id).1.files
        = (runBatches cfg idGen initState bs).files.erase e := by
  have hids := runBatches_map_id cfg idGen bs initState rfl
  have hnd : ((runBatches cfg idGen initState bs).files.map FileObject.id).Nodup := by
    rw [hids]
    exact List.Nodup.map (fun i j h => hinj i j h) (List.nodup_range' _ _)
  exact ⟨hnd, fun e he => filter_ne_erase _ e hnd he⟩

/-- A concrete instance of C9 (amended): an injective generator (distinct-length
strings) yields pairwise-distinct identifiers over two accept calls. -/
theorem unique_ids_of_injective_gen_witness :
    (∀ i j : Nat, String.mk (List.replicate i 'a') = String.mk (List.replicate j 'a')
        → i = j) ∧
    ((runBatches defaultConfig (fun n => String.mk (List.replicate n 'a')) initState
        [[⟨"a.png", 5, "image/png"⟩], [⟨"b.png", 6, "image/png"⟩]]).files.map
        FileObject.id).Nodup := by
  have hinj : ∀ i j : Nat,
      String.mk (List.replicate i 'a') = String.mk (List.replicate j 'a') → i = j := by
    intro i j h
    have h2 := congrArg (fun s : String => s.data.length) h
    simpa using h2
  exact ⟨hinj, (unique_ids_of_injective_gen defaultConfig
    (fun n => String.mk (List.replicate n 'a'))
    [[⟨"a.png", 5, "image/png"⟩], [⟨"b.png", 6, "image/png"⟩]] hinj).1⟩

end CameraUploader
